import Mathlib

/-!
# Verification of the chat-with-pdf retrieval-and-ingestion pipeline

A shallow embedding of the two Python services of the repository:

* `chat-service-python` — `app/services/retrieval.py` (vector similarity
  search and bounded context assembly), `app/services/context.py`
  (request validation, source formatting) and `server/grpc_server.py`
  (the `StreamChat` streaming protocol);
* `pdf-processor-python` — `app/services/storage.py` (chunk persistence),
  `app/services/embeddings.py` (chunking) and `worker/pdf_processor.py`
  (the queue-driven ingestion worker).

External collaborators (the pgvector distance operator, the sentence
transformer, MinIO, RabbitMQ, the splitter and the LLM) are modelled as
parameters or injected step outcomes; Python floats are modelled as `ℚ`.
-/

/-- A pgvector vector value: a list of rationals.  The cosine distance
operator `<=>` is computed inside PostgreSQL, so it enters the model as an
abstract parameter `dist : Vec → Vec → ℚ`. -/
abbrev Vec := List ℚ

/-- One row of the result set of the SQL query in
`retrieval.py::similarity_search` (lines 114-132): the selected columns of
`chunks c JOIN files f ON f.id = c.file_id`. -/
structure ChunkRow where
  id : String
  project_id : String
  file_id : String
  filename : String
  content : String
  vector : Vec
  chunk_index : ℕ
  page_number : Option ℕ
deriving DecidableEq, Repr

/-- `1 - (c.vector <=> :qv)` — the similarity score computed by the query
(retrieval.py line 124). -/
def similarityScore (dist : Vec → Vec → ℚ) (qv v : Vec) : ℚ :=
  1 - dist qv v

/-- The WHERE clause of the query (lines 127-128):
`c.project_id = :project_id AND (1 - (c.vector <=> :qv)) >= :min_sim`. -/
def matchesWhere (dist : Vec → Vec → ℚ) (pid : String) (qv : Vec)
    (minSim : ℚ) (c : ChunkRow) : Bool :=
  c.project_id == pid && decide (minSim ≤ similarityScore dist qv c.vector)

/-- The ORDER BY key of the query (line 129): ascending cosine distance
`c.vector <=> :qv` (equivalently, descending similarity). -/
def distLE (dist : Vec → Vec → ℚ) (qv : Vec) (a b : ChunkRow) : Prop :=
  dist qv a.vector ≤ dist qv b.vector

/-- SQL semantics of the query `WHERE … ORDER BY c.vector <=> :qv LIMIT :k`:
some ordering of the filtered rows that is non-decreasing in distance,
truncated to `k` rows.  The ORDER BY key is not a total key (two rows may be
at the same distance), so the result is a relation, not a function: any
tie order is a legal result set. -/
def sqlRows (dist : Vec → Vec → ℚ) (db : List ChunkRow) (pid : String)
    (qv : Vec) (k : ℕ) (minSim : ℚ) (rows : List ChunkRow) : Prop :=
  ∃ sorted : List ChunkRow,
    sorted.Perm (db.filter (matchesWhere dist pid qv minSim)) ∧
    sorted.Sorted (distLE dist qv) ∧
    rows = sorted.take k

/-- The result dictionary built per row at retrieval.py lines 146-159. -/
structure RetrievedChunk where
  id : String
  content : String
  chunk_index : ℕ
  page_number : Option ℕ
  filename : String
  file_id : String
  similarity_score : ℚ
deriving DecidableEq, Repr

/-- Formatting of one SQL row into the output dictionary (lines 148-159);
`similarity_score` is the `1 - distance` column of the query. -/
def toRetrieved (dist : Vec → Vec → ℚ) (qv : Vec) (r : ChunkRow) :
    RetrievedChunk :=
  ⟨r.id, r.content, r.chunk_index, r.page_number, r.filename, r.file_id,
    similarityScore dist qv r.vector⟩

/-- `similarity_search` with the `top_k` / `min_similarity` parameters
already resolved to their effective values: the SQL query (lines 107-161)
followed by the per-row formatting. -/
def similarity_search_spec (dist : Vec → Vec → ℚ) (db : List ChunkRow)
    (qv : Vec) (pid : String) (k : ℕ) (minSim : ℚ)
    (out : List RetrievedChunk) : Prop :=
  ∃ rows, sqlRows dist db pid qv k minSim rows ∧
    out = rows.map (toRetrieved dist qv)

/-- Python `top_k or config.TOP_K_RESULTS` (retrieval.py line 104): `None`
and the falsy value `0` are both replaced by the configured default. -/
def orDefaultNat (x : Option ℕ) (d : ℕ) : ℕ :=
  match x with
  | none => d
  | some v => if v = 0 then d else v

/-- Python `min_similarity or config.MIN_SIMILARITY_SCORE` (line 105):
`None` and the falsy value `0.0` are both replaced by the default. -/
def orDefaultRat (x : Option ℚ) (d : ℚ) : ℚ :=
  match x with
  | none => d
  | some v => if v = 0 then d else v

/-- `similarity_search` as callable (retrieval.py lines 78-166): optional
`top_k` / `min_similarity` arguments are resolved against the configured
defaults `TOPK` / `MINSIM` by truthiness, then the query runs. -/
def similarity_search (dist : Vec → Vec → ℚ) (db : List ChunkRow)
    (qv : Vec) (pid : String) (top_k : Option ℕ) (min_similarity : Option ℚ)
    (TOPK : ℕ) (MINSIM : ℚ) (out : List RetrievedChunk) : Prop :=
  similarity_search_spec dist db qv pid (orDefaultNat top_k TOPK)
    (orDefaultRat min_similarity MINSIM) out

/-- C1: for every project, query vector and effective `top_k` /
`min_similarity`, any result of `similarity_search` has at most `top_k`
rows, every returned `similarity_score` (computed as `1 - distance`) is at
least `min_similarity`, and the results are sorted in descending order of
`similarity_score`. -/
theorem similarity_search_bounds_and_sorted (dist : Vec → Vec → ℚ)
    (db : List ChunkRow) (qv : Vec) (pid : String) (k : ℕ) (minSim : ℚ)
    (out : List RetrievedChunk)
    (h : similarity_search_spec dist db qv pid k minSim out) :
    out.length ≤ k ∧ (∀ c ∈ out, minSim ≤ c.similarity_score) ∧
      out.Sorted (fun a b => b.similarity_score ≤ a.similarity_score) := by
  obtain ⟨rows, ⟨sorted, hperm, hsort, htake⟩, hout⟩ := h
  subst hout
  subst htake
  refine ⟨?_, ?_, ?_⟩
  · simp only [List.length_map]
    exact List.length_take_le k sorted
  · intro c hc
    obtain ⟨r, hr, rfl⟩ := List.mem_map.mp hc
    have hr1 : r ∈ sorted := List.mem_of_mem_take hr
    have hr2 : r ∈ db.filter (matchesWhere dist pid qv minSim) :=
      hperm.mem_iff.mp hr1
    have hw := (List.mem_filter.mp hr2).2
    simp only [matchesWhere, Bool.and_eq_true, decide_eq_true_eq] at hw
    exact hw.2
  · have h1 : (sorted.take k).Sorted (distLE dist qv) :=
      hsort.sublist (List.take_sublist k sorted)
    exact h1.map _ (fun a b hab => by
      simpa [toRetrieved, similarityScore] using sub_le_sub_left hab 1)

/-- A concrete stand-in for the pgvector distance operator, used by the
closed instances below. -/
def dist0 : Vec → Vec → ℚ := fun _ _ => 0

/-- A concrete chunk row (chunk 5 of file f, project p). -/
def rowA : ChunkRow :=
  ⟨"idA", "p", "f", "doc.pdf", "alpha", [1, 0], 5, some 1⟩

/-- A concrete chunk row (chunk 2 of file g, project p) whose vector equals
`rowA`'s, so the two rows are at the same distance from every query. -/
def rowB : ChunkRow :=
  ⟨"idB", "p", "g", "other.pdf", "beta", [1, 0], 2, some 3⟩

theorem similarity_search_bounds_and_sorted_witness :
    [toRetrieved dist0 [] rowA].length ≤ 1 ∧
      (∀ c ∈ [toRetrieved dist0 [] rowA], (0 : ℚ) ≤ c.similarity_score) ∧
      [toRetrieved dist0 [] rowA].Sorted
        (fun a b => b.similarity_score ≤ a.similarity_score) :=
  similarity_search_bounds_and_sorted dist0 [rowA] [] "p" 1 0 _
    ⟨[rowA],
      ⟨[rowA],
        by
          have hfil : List.filter (matchesWhere dist0 "p" [] 0) [rowA] = [rowA] := by
            norm_num [matchesWhere, similarityScore, dist0, List.filter, rowA]
          rw [hfil],
        List.sorted_singleton rowA, rfl⟩,
      rfl⟩

/-- The two concrete rows both satisfy the WHERE clause for project "p",
query vector `[]` and threshold 0. -/
theorem filter_rowB_rowA :
    List.filter (matchesWhere dist0 "p" [] 0) [rowB, rowA] = [rowB, rowA] := by
  norm_num [matchesWhere, similarityScore, dist0, List.filter, rowA, rowB]

/-- `[rowA, rowB]` is non-decreasing in distance (the distances are equal). -/
theorem sorted_rowA_rowB : List.Sorted (distLE dist0 []) [rowA, rowB] := by
  simp [List.sorted_cons, distLE, dist0]

/-- `[rowB, rowA]` is non-decreasing in distance (the distances are equal). -/
theorem sorted_rowB_rowA : List.Sorted (distLE dist0 []) [rowB, rowA] := by
  simp [List.sorted_cons, distLE, dist0]

/-- One legal result of the query on a store holding `rowB` and `rowA`:
the tie between the two equal-distance rows resolved with `rowA`
(chunk_index 5) first. -/
theorem sqlRows_tie_A_first :
    sqlRows dist0 [rowB, rowA] "p" [] 5 0 [rowA, rowB] :=
  ⟨[rowA, rowB], by rw [filter_rowB_rowA]; exact List.Perm.swap rowB rowA [],
    sorted_rowA_rowB, rfl⟩

/-- C3 counterexample: a legal `similarity_search` result in which two
chunks of the same project with equal similarity scores come back in
*descending* `chunk_index` order — the SQL query (retrieval.py line 129)
orders by distance only and has no `chunk_index` tie-break, so the claimed
ascending-`chunk_index` tie order does not hold. -/
theorem similarity_search_tie_not_chunk_index_cex :
    similarity_search_spec dist0 [rowB, rowA] [] "p" 5 0
        [toRetrieved dist0 [] rowA, toRetrieved dist0 [] rowB] ∧
      (toRetrieved dist0 [] rowA).similarity_score =
        (toRetrieved dist0 [] rowB).similarity_score ∧
      (toRetrieved dist0 [] rowB).chunk_index <
        (toRetrieved dist0 [] rowA).chunk_index :=
  ⟨⟨[rowA, rowB], sqlRows_tie_A_first, rfl⟩, rfl, by norm_num [toRetrieved, rowA, rowB]⟩

/-- C3 amended: the query imposes no order among rows at equal distance —
any reordering of a legal result that is still non-decreasing in distance
is itself a legal result, so the ranking of tied chunks is unspecified
(not deterministic, and in particular not by ascending `chunk_index`). -/
theorem similarity_search_tie_order_unspecified (dist : Vec → Vec → ℚ)
    (db : List ChunkRow) (pid : String) (qv : Vec) (k : ℕ) (minSim : ℚ)
    (rows rows' : List ChunkRow)
    (h : sqlRows dist db pid qv k minSim rows)
    (hperm : rows'.Perm rows) (hsort : rows'.Sorted (distLE dist qv)) :
    sqlRows dist db pid qv k minSim rows' := by
  obtain ⟨sorted, hp, hs, rfl⟩ := h
  have hlen : rows'.length = min k sorted.length := by
    rw [hperm.length_eq, List.length_take]
  have hsplit : sorted.take k ++ sorted.drop k = sorted :=
    List.take_append_drop k sorted
  refine ⟨rows' ++ sorted.drop k, ?_, ?_, ?_⟩
  · have h1 : (sorted.take k ++ sorted.drop k).Perm
        (db.filter (matchesWhere dist pid qv minSim)) := by
      rw [hsplit]; exact hp
    exact (hperm.append_right _).trans h1
  · have hs' : (sorted.take k ++ sorted.drop k).Pairwise (distLE dist qv) := by
      rw [hsplit]; exact hs
    obtain ⟨h1, h2, h3⟩ := List.pairwise_append.mp hs'
    exact List.pairwise_append.mpr
      ⟨hsort, h2, fun a ha b hb => h3 a (hperm.subset ha) b hb⟩
  · rcases le_or_lt k sorted.length with hk | hk
    · have hlk : rows'.length = k := by omega
      rw [← hlk, List.take_left]
    · have hd : sorted.drop k = [] := List.drop_eq_nil_of_le hk.le
      rw [hd, List.append_nil]
      have hle : rows'.length ≤ k := by omega
      exact (List.take_of_length_le hle).symm

theorem similarity_search_tie_order_unspecified_witness :
    sqlRows dist0 [rowB, rowA] "p" [] 5 0 [rowB, rowA] :=
  similarity_search_tie_order_unspecified dist0 [rowB, rowA] "p" [] 5 0
    [rowA, rowB] [rowB, rowA] sqlRows_tie_A_first
    (List.Perm.swap rowA rowB []) sorted_rowB_rowA

/-- C10: passing `top_k = 0` or `min_similarity = 0.0` explicitly is
indistinguishable from passing nothing — Python's truthiness `or` (lines
104-105 of retrieval.py) replaces both by the configured defaults, so a
caller can never request zero results or a zero (disabled) threshold. -/
theorem zero_params_replaced_by_defaults (dist : Vec → Vec → ℚ)
    (db : List ChunkRow) (qv : Vec) (pid : String) (TOPK : ℕ) (MINSIM : ℚ)
    (out : List RetrievedChunk) :
    orDefaultNat (some 0) TOPK = TOPK ∧ orDefaultNat none TOPK = TOPK ∧
      orDefaultRat (some 0) MINSIM = MINSIM ∧
      orDefaultRat none MINSIM = MINSIM ∧
      (similarity_search dist db qv pid (some 0) (some 0) TOPK MINSIM out ↔
        similarity_search dist db qv pid none none TOPK MINSIM out) := by
  have h2 : orDefaultRat (some 0) MINSIM = MINSIM := by norm_num [orDefaultRat]
  refine ⟨rfl, rfl, h2, rfl, ?_⟩
  simp only [similarity_search]
  rw [h2, show orDefaultNat (some 0) TOPK = TOPK from rfl,
    show orDefaultNat none TOPK = TOPK from rfl,
    show orDefaultRat none MINSIM = MINSIM from rfl]

/-- Python truthiness of the `page_number` dictionary value at
retrieval.py line 206 (`if ch["page_number"]:`): `None` and `0` are falsy. -/
def pageTruthy : Option ℕ → Bool
  | none => false
  | some p => p != 0

/-- The rendered source block of one chunk (retrieval.py lines 204-208):
`"Source: {filename}"`, optionally `" (Page {page})"`, then a newline, the
chunk text, and a trailing newline. -/
def renderPiece (ch : RetrievedChunk) : String :=
  let head := "Source: " ++ ch.filename
  let head2 := if pageTruthy ch.page_number then
      head ++ " (Page " ++ toString (ch.page_number.getD 0) ++ ")"
    else head
  head2 ++ "\n" ++ ch.content ++ "\n"

/-- The accumulation loop of `retrieve_context` (retrieval.py lines
199-217): running character total of accepted blocks; the first block that
would push the total over `maxLen` stops the loop (`break`). -/
def buildContext (maxLen : ℕ) (total : ℕ) :
    List RetrievedChunk → List String × List RetrievedChunk
  | [] => ([], [])
  | ch :: rest =>
    if total + (renderPiece ch).length > maxLen then ([], [])
    else
      (renderPiece ch :: (buildContext maxLen (total + (renderPiece ch).length) rest).1,
        ch :: (buildContext maxLen (total + (renderPiece ch).length) rest).2)

/-- Python `"\n".join(parts)` (retrieval.py line 220): the separator goes
between consecutive parts only. -/
def joinNl : List String → String
  | [] => ""
  | [p] => p
  | p :: q :: ps => p ++ "\n" ++ joinNl (q :: ps)

/-- The context-assembly stage of `retrieve_context` (retrieval.py lines
194-220), taking the ranked chunk list returned by `similarity_search` and
the configured `MAX_CONTEXT_LENGTH`; returns the joined context string and
the list of chunks actually used. -/
def retrieve_context (maxLen : ℕ) (chunks : List RetrievedChunk) :
    String × List RetrievedChunk :=
  if chunks.isEmpty then ("", [])
  else
    (joinNl (buildContext maxLen 0 chunks).1, (buildContext maxLen 0 chunks).2)

/-- Character length of one rendered block. -/
def pieceLen (ch : RetrievedChunk) : ℕ := (renderPiece ch).length

/-- Total character length of the rendered blocks of a chunk list — the
quantity the loop's `total` variable tracks. -/
def blocksLen (l : List RetrievedChunk) : ℕ := (l.map pieceLen).sum

/-- Behaviour of the accumulation loop: the accepted parts are the rendered
blocks of the accepted chunks; the accepted chunks are the prefix of the
input of their own length; whenever something was accepted the running
total stays within the budget; and if a chunk was rejected, the first
rejected one is exactly the chunk whose block overflows the budget. -/
theorem buildContext_spec (maxLen : ℕ) :
    ∀ (chunks : List RetrievedChunk) (total : ℕ),
      (buildContext maxLen total chunks).1 =
          (buildContext maxLen total chunks).2.map renderPiece ∧
        (buildContext maxLen total chunks).2 =
          chunks.take (buildContext maxLen total chunks).2.length ∧
        ((buildContext maxLen total chunks).2 = [] ∨
          total + blocksLen (buildContext maxLen total chunks).2 ≤ maxLen) ∧
        ∀ h : (buildContext maxLen total chunks).2.length < chunks.length,
          maxLen < total + blocksLen (buildContext maxLen total chunks).2 +
            pieceLen (chunks.get ⟨(buildContext maxLen total chunks).2.length, h⟩) := by
  intro chunks
  induction chunks with
  | nil =>
    intro total
    refine ⟨rfl, rfl, Or.inl rfl, ?_⟩
    intro h
    exact absurd h (by simp [buildContext])
  | cons ch rest ih =>
    intro total
    by_cases hover : total + (renderPiece ch).length > maxLen
    · have heq : buildContext maxLen total (ch :: rest) = ([], []) := by
        simp [buildContext, hover]
      refine ⟨by simp [heq], by simp [heq], Or.inl (by simp [heq]), ?_⟩
      intro h
      simp only [heq, blocksLen, List.map_nil, List.sum_nil, Nat.add_zero]
      have : (ch :: rest).get ⟨0, by simp⟩ = ch := rfl
      simp only [heq] at h ⊢
      simpa [pieceLen, this] using hover
    · have heq : buildContext maxLen total (ch :: rest) =
          (renderPiece ch ::
            (buildContext maxLen (total + (renderPiece ch).length) rest).1,
           ch :: (buildContext maxLen (total + (renderPiece ch).length) rest).2) := by
        simp [buildContext, hover]
      obtain ⟨ih1, ih2, ih3, ih4⟩ := ih (total + (renderPiece ch).length)
      refine ⟨by simp [heq, ih1], by simp only [heq]; simpa using congrArg (ch :: ·) ih2, ?_, ?_⟩
      · right
        rcases ih3 with hnil | hle
        · simp only [heq, hnil, blocksLen, pieceLen, List.map_cons, List.map_nil,
            List.sum_cons, List.sum_nil, Nat.add_zero]
          omega
        · simp only [heq, blocksLen, List.map_cons, List.sum_cons, pieceLen]
          simp only [blocksLen] at hle
          omega
      · intro h
        simp only [heq] at h ⊢
        have h' : (buildContext maxLen (total + (renderPiece ch).length) rest).2.length
            < rest.length := by simpa using h
        have := ih4 h'
        simp only [blocksLen, List.map_cons, List.sum_cons, pieceLen] at this ⊢
        have hget : (ch :: rest).get
            ⟨(buildContext maxLen (total + (renderPiece ch).length) rest).2.length + 1,
              by simpa using h⟩ =
            rest.get ⟨(buildContext maxLen (total + (renderPiece ch).length) rest).2.length, h'⟩ := rfl
        simp only [List.length_cons, hget]
        omega

/-- Length of the Python-style join: for a nonempty part list, the joined
length plus one is the sum of the part lengths plus the part count. -/
theorem joinNl_length :
    ∀ parts : List String, parts ≠ [] →
      (joinNl parts).length + 1 = (parts.map String.length).sum + parts.length := by
  intro parts
  induction parts with
  | nil => intro h; exact absurd rfl h
  | cons p ps ih =>
    intro _
    cases ps with
    | nil => simp [joinNl]
    | cons q qs =>
      have := ih (by simp)
      have hnl : ("\n" : String).length = 1 := rfl
      simp only [joinNl, List.map_cons, List.sum_cons, List.length_cons,
        String.length_append, hnl] at this ⊢
      omega

/-- A retrieved chunk with empty filename, empty content and no page
number; its rendered block is `"Source: \n\n"`, of length 10. -/
def cexChunk : RetrievedChunk := ⟨"idC", "", 0, none, "", "f", 1⟩

/-- C2 counterexample: with `MAX_CONTEXT_LENGTH = 20` and two chunks whose
rendered blocks are 10 characters each, the loop accepts both (running
block total 20 ≤ 20), but the `"\n"`-joined context string is 21
characters long — the join separators are not counted against the budget,
so the output exceeds `MAX_CONTEXT_LENGTH`. -/
theorem retrieve_context_exceeds_max_cex :
    20 < (retrieve_context 20 [cexChunk, cexChunk]).1.length := by decide

/-- C2 amended: the accumulated length of the rendered blocks never
exceeds `MAX_CONTEXT_LENGTH`, so the joined context string can exceed it
only by the `used − 1` separator newlines:
`length ≤ MAX_CONTEXT_LENGTH + used − 1`. -/
theorem retrieve_context_length_within_separator_slack (maxLen : ℕ)
    (chunks : List RetrievedChunk) :
    (retrieve_context maxLen chunks).1.length ≤
      maxLen + (retrieve_context maxLen chunks).2.length - 1 := by
  by_cases hemp : chunks.isEmpty
  · simp [retrieve_context, hemp]
  · obtain ⟨h1, h2, h3, h4⟩ := buildContext_spec maxLen chunks 0
    have hrc1 : (retrieve_context maxLen chunks).1 =
        joinNl (buildContext maxLen 0 chunks).1 := by
      simp [retrieve_context, hemp]
    have hrc2 : (retrieve_context maxLen chunks).2 =
        (buildContext maxLen 0 chunks).2 := by
      simp [retrieve_context, hemp]
    rw [hrc1, hrc2]
    by_cases hused : (buildContext maxLen 0 chunks).2 = []
    · rw [hused] at h1
      rw [h1]
      simp [joinNl]
    · have hle : blocksLen (buildContext maxLen 0 chunks).2 ≤ maxLen := by
        rcases h3 with hnil | hle
        · exact absurd hnil hused
        · simpa using hle
      have hpne : (buildContext maxLen 0 chunks).1 ≠ [] := by
        rw [h1]
        simpa using hused
      have hjoin := joinNl_length (buildContext maxLen 0 chunks).1 hpne
      have hsum : ((buildContext maxLen 0 chunks).1.map String.length).sum =
          blocksLen (buildContext maxLen 0 chunks).2 := by
        rw [h1, List.map_map]
        rfl
      have hlen2 : (buildContext maxLen 0 chunks).1.length =
          (buildContext maxLen 0 chunks).2.length := by
        rw [h1, List.length_map]
      omega

/-- C4: the chunks used by the context assembler are the prefix of the
ranked input list of their own length (input order, nothing reordered or
skipped), and when some chunk was excluded, the first excluded chunk is
exactly the one whose rendered block pushes the accumulated block total
over `MAX_CONTEXT_LENGTH` (every later chunk is excluded with it, the used
set being that prefix). -/
theorem retrieve_context_used_chunks_budget_cutoff (maxLen : ℕ)
    (chunks : List RetrievedChunk) :
    (retrieve_context maxLen chunks).2 =
        chunks.take (retrieve_context maxLen chunks).2.length ∧
      ∀ h : (retrieve_context maxLen chunks).2.length < chunks.length,
        maxLen < blocksLen (retrieve_context maxLen chunks).2 +
          pieceLen (chunks.get ⟨(retrieve_context maxLen chunks).2.length, h⟩) := by
  by_cases hemp : chunks.isEmpty
  · have hnil : chunks = [] := List.isEmpty_iff.mp hemp
    subst hnil
    refine ⟨rfl, ?_⟩
    intro h
    simp [retrieve_context] at h
  · obtain ⟨h1, h2, h3, h4⟩ := buildContext_spec maxLen chunks 0
    have hrc : (retrieve_context maxLen chunks).2 =
        (buildContext maxLen 0 chunks).2 := by
      simp [retrieve_context, hemp]
    rw [hrc]
    exact ⟨h2, fun h => by simpa using h4 h⟩

/-- A LangChain `Document` as used by the pdf-processor: its text plus the
metadata keys the pipeline reads (`metadata.get` returns `None` for a
missing key, hence the `Option` fields). -/
structure Document where
  page_content : String
  meta_page_number : Option ℕ
  meta_chunk_index : Option ℕ
  meta_char_start : Option ℕ
  meta_char_end : Option ℕ
deriving DecidableEq, Repr

/-- A row of the `chunks` table as inserted by `store_embeddings`
(storage.py lines 101-113).  `project_id` / `file_id` come from the job
payload's `dict.get` and may be SQL NULL. -/
structure StoredChunk where
  project_id : Option String
  file_id : Option String
  content : String
  vector : Vec
  chunk_index : ℕ
  page_number : Option ℕ
  char_start : Option ℕ
  char_end : Option ℕ
deriving DecidableEq, Repr

/-- SQL equality under three-valued logic: a comparison involving NULL is
never satisfied. -/
def sqlEq : Option String → Option String → Bool
  | some a, some b => a == b
  | _, _ => false

/-- The chunk records built by `store_embeddings` (storage.py lines
95-114): `enumerate(zip(chunks, embeddings))`, so `chunk_index` is the
position in the zipped list, and `page_number` / `char_start` / `char_end`
are read from each chunk's metadata. -/
def mkChunkRecords (fid pid : Option String) (chunks : List Document)
    (embeddings : List Vec) : List StoredChunk :=
  (chunks.zip embeddings).enum.map fun p =>
    ⟨pid, fid, p.2.1.page_content, p.2.2, p.1, p.2.1.meta_page_number,
      p.2.1.meta_char_start, p.2.1.meta_char_end⟩

/-- `delete_existing_embeddings` (storage.py lines 129-150): delete all
`chunks` rows whose `file_id` equals the given one. -/
def delete_existing_embeddings (db : List StoredChunk) (fid : Option String) :
    List StoredChunk :=
  db.filter fun r => !(sqlEq r.file_id fid)

/-- `store_embeddings` (storage.py lines 77-127): build the records and
insert them all. -/
def store_embeddings (db : List StoredChunk) (fid pid : Option String)
    (chunks : List Document) (embeddings : List Vec) : List StoredChunk :=
  db ++ mkChunkRecords fid pid chunks embeddings

/-- Step 4 of `process_pdf_message` (pdf_processor.py lines 113-118):
delete any existing embeddings for the file, then store the new ones. -/
def replaceChunks (db : List StoredChunk) (fid pid : Option String)
    (chunks : List Document) (embeddings : List Vec) : List StoredChunk :=
  store_embeddings (delete_existing_embeddings db fid) fid pid chunks embeddings

/-- Every record built for `fid` carries `file_id = fid`. -/
theorem mkChunkRecords_file_id (fid pid : Option String)
    (chunks : List Document) (embeddings : List Vec) :
    ∀ r ∈ mkChunkRecords fid pid chunks embeddings, r.file_id = fid := by
  intro r hr
  obtain ⟨p, _, rfl⟩ := List.mem_map.mp hr
  rfl

/-- Filtering the freshly stored records for a real (non-NULL) `fid` keeps
all of them. -/
theorem filter_mkChunkRecords (fid : String) (pid : Option String)
    (chunks : List Document) (embeddings : List Vec) :
    (mkChunkRecords (some fid) pid chunks embeddings).filter
        (fun r => sqlEq r.file_id (some fid)) =
      mkChunkRecords (some fid) pid chunks embeddings := by
  apply List.filter_eq_self.mpr
  intro r hr
  rw [mkChunkRecords_file_id (some fid) pid chunks embeddings r hr]
  simp [sqlEq]

/-- After deleting a file's chunks, no chunk of that file remains. -/
theorem filter_delete_eq_nil (db : List StoredChunk) (fid : Option String) :
    (delete_existing_embeddings db fid).filter
        (fun r => sqlEq r.file_id fid) = [] := by
  apply List.filter_eq_nil_iff.mpr
  intro r hr
  have hmem := List.mem_filter.mp hr
  simp only [Bool.not_eq_eq_eq_not, Bool.not_true] at hmem
  simp [hmem.2]

/-- The map of `chunk_index` over the built records is `0..n-1` where `n`
is the number of (chunk, embedding) pairs. -/
theorem mkChunkRecords_chunk_index (fid pid : Option String)
    (chunks : List Document) (embeddings : List Vec) :
    (mkChunkRecords fid pid chunks embeddings).map StoredChunk.chunk_index =
      List.range (chunks.zip embeddings).length := by
  rw [mkChunkRecords, List.map_map]
  have : (StoredChunk.chunk_index ∘ fun p : ℕ × (Document × Vec) =>
      (⟨pid, fid, p.2.1.page_content, p.2.2, p.1, p.2.1.meta_page_number,
        p.2.1.meta_char_start, p.2.1.meta_char_end⟩ : StoredChunk)) = Prod.fst := rfl
  rw [this, List.enum_map_fst]

/-- C5: reprocessing a file (running delete-then-store twice for the same
`file_id`) leaves exactly the second run's chunk set persisted for that
file — no leftovers from the first run, and no duplicate ordinals. -/
theorem reprocess_leaves_exactly_new_chunks (db : List StoredChunk)
    (fid : String) (pid : Option String) (c1 c2 : List Document)
    (e1 e2 : List Vec) :
    ((replaceChunks (replaceChunks db (some fid) pid c1 e1)
          (some fid) pid c2 e2).filter
        (fun r => sqlEq r.file_id (some fid))) =
      mkChunkRecords (some fid) pid c2 e2 ∧
      (((replaceChunks (replaceChunks db (some fid) pid c1 e1)
            (some fid) pid c2 e2).filter
          (fun r => sqlEq r.file_id (some fid))).map
        StoredChunk.chunk_index).Nodup := by
  have hmain : ((replaceChunks (replaceChunks db (some fid) pid c1 e1)
        (some fid) pid c2 e2).filter
      (fun r => sqlEq r.file_id (some fid))) =
      mkChunkRecords (some fid) pid c2 e2 := by
    rw [replaceChunks, store_embeddings, List.filter_append,
      filter_delete_eq_nil, filter_mkChunkRecords, List.nil_append]
  refine ⟨hmain, ?_⟩
  rw [hmain, mkChunkRecords_chunk_index]
  exact List.nodup_range _

/-- `chunk_documents` (embeddings.py lines 70-91): for each page document
in order, the splitter (LangChain's RecursiveCharacterTextSplitter, a
parameter here) produces the page's pieces in order; each piece's metadata
is updated with its within-page index and the page's `page_number`, and
all pieces are appended in page order. -/
def chunk_documents (split : Document → List Document)
    (docs : List Document) : List Document :=
  docs.flatMap fun doc =>
    (split doc).enum.map fun p =>
      ⟨p.2.page_content, doc.meta_page_number, some p.1,
        p.2.meta_char_start, p.2.meta_char_end⟩

/-- C9: for a successfully ingested file (one embedding per chunk), the
persisted `chunk_index` values are exactly `0..n-1` — contiguous,
zero-based, duplicate-free — and the persisted contents follow the chunk
list produced by `chunk_documents`, i.e. original document order (page
order, then within-page split order). -/
theorem stored_chunk_index_contiguous_zero_based
    (split : Document → List Document) (docs : List Document)
    (fid pid : Option String) (embeddings : List Vec)
    (h : embeddings.length = (chunk_documents split docs).length) :
    (mkChunkRecords fid pid (chunk_documents split docs) embeddings).map
          StoredChunk.chunk_index =
        List.range (chunk_documents split docs).length ∧
      ((mkChunkRecords fid pid (chunk_documents split docs) embeddings).map
          StoredChunk.chunk_index).Nodup ∧
      (mkChunkRecords fid pid (chunk_documents split docs) embeddings).map
          StoredChunk.content =
        (chunk_documents split docs).map Document.page_content := by
  have hzip : ((chunk_documents split docs).zip embeddings).length =
      (chunk_documents split docs).length := by
    rw [List.length_zip, h, min_self]
  refine ⟨?_, ?_, ?_⟩
  · rw [mkChunkRecords_chunk_index, hzip]
  · rw [mkChunkRecords_chunk_index]
    exact List.nodup_range _
  · rw [mkChunkRecords, List.map_map]
    rw [show (StoredChunk.content ∘ fun p : ℕ × (Document × Vec) =>
        (⟨pid, fid, p.2.1.page_content, p.2.2, p.1, p.2.1.meta_page_number,
          p.2.1.meta_char_start, p.2.1.meta_char_end⟩ : StoredChunk)) =
        ((fun q : Document × Vec => q.1.page_content) ∘ Prod.snd) from rfl]
    rw [← List.map_map, List.enum_map_snd]
    rw [show (fun q : Document × Vec => q.1.page_content) =
        (Document.page_content ∘ Prod.fst) from rfl]
    rw [← List.map_map, List.map_fst_zip]
    exact le_of_eq h.symm

/-- A trivial concrete splitter: each page is one chunk. -/
def split0 : Document → List Document := fun d => [d]

/-- A concrete one-page document. -/
def doc0 : Document := ⟨"text of page one", some 1, none, none, none⟩

theorem stored_chunk_index_contiguous_zero_based_witness :
    (mkChunkRecords (some "f1") (some "p1") (chunk_documents split0 [doc0])
          [[1]]).map StoredChunk.chunk_index =
        List.range (chunk_documents split0 [doc0]).length ∧
      ((mkChunkRecords (some "f1") (some "p1") (chunk_documents split0 [doc0])
          [[1]]).map StoredChunk.chunk_index).Nodup ∧
      (mkChunkRecords (some "f1") (some "p1") (chunk_documents split0 [doc0])
          [[1]]).map StoredChunk.content =
        (chunk_documents split0 [doc0]).map Document.page_content :=
  stored_chunk_index_contiguous_zero_based split0 [doc0] (some "f1")
    (some "p1") [[1]] rfl

/-- A row of the `files` table, restricted to the columns the worker
touches. -/
structure FileRec where
  id : String
  processing_status : String
deriving DecidableEq, Repr

/-- The database state the worker mutates: file rows and chunk rows. -/
structure WorkerState where
  files : List FileRec
  chunks : List StoredChunk
deriving DecidableEq, Repr

/-- `update_file_processing_status` (storage.py lines 45-75): UPDATE files
SET processing_status = status WHERE id = file_id.  A `None` file id (SQL
NULL) matches no row. -/
def update_file_processing_status (st : WorkerState) (fid : Option String)
    (status : String) : WorkerState :=
  ⟨st.files.map fun f =>
      if sqlEq (some f.id) fid then ⟨f.id, status⟩ else f,
    st.chunks⟩

/-- A parsed job payload: `job_data.get(...)` for each of the four keys
(`None` when the key is absent). -/
structure Job where
  projectId : Option String
  fileId : Option String
  filename : Option String
  minioPath : Option String
deriving DecidableEq, Repr

/-- What the worker tells RabbitMQ about the message:
`ack`, `nack(requeue=True)` or `nack(requeue=False)`.  `none` at the use
sites below means the callback raised and no acknowledgement was sent. -/
inductive AckAction
  | ack
  | nackRequeue
  | nackDrop
deriving DecidableEq, Repr

/-- Outcomes of the externally-effectful steps of one job: whether each
database write succeeds (a failing write rolls back, mutating nothing),
what the blob download and the PDF-processing pipeline return (`none` =
the step raised), and whether the failure-path status write succeeds. -/
structure WorkerEnv where
  updProcessingOk : Bool
  downloadResult : Option String
  processResult : Option (List Document × List Vec)
  deleteOk : Bool
  storeOk : Bool
  updCompletedOk : Bool
  updFailedOk : Bool
deriving DecidableEq, Repr

/-- The `except Exception` handler of `process_pdf_message`
(pdf_processor.py lines 133-143): if the parsed payload is truthy and has
a truthy `fileId`, write status `failed` — a write that itself raises
propagates out of the callback, so no nack is sent (`none`); otherwise
skip the write.  If control reaches the end, nack with `requeue=True`. -/
def handleProcessingError (env : WorkerEnv) (st : WorkerState) (job : Job) :
    WorkerState × Option AckAction :=
  match job.fileId with
  | some fid =>
    if fid ≠ "" then
      if env.updFailedOk then
        (update_file_processing_status st (some fid) "failed",
          some AckAction.nackRequeue)
      else (st, none)
    else (st, some AckAction.nackRequeue)
  | none => (st, some AckAction.nackRequeue)

/-- `process_pdf_message` (pdf_processor.py lines 77-148).  `body = none`
is a payload that is not parseable JSON (`json.JSONDecodeError`): the
message is nacked with `requeue=False` and nothing else happens.  A parsed
job runs status-update → download → process → delete → store →
status-update, diverting to the error handler at the first failing step. -/
def process_pdf_message (env : WorkerEnv) (st : WorkerState)
    (body : Option Job) : WorkerState × Option AckAction :=
  match body with
  | none => (st, some AckAction.nackDrop)
  | some job =>
    if env.updProcessingOk then
      match env.downloadResult with
      | some _ =>
        match env.processResult with
        | some ce =>
          if env.deleteOk then
            if env.storeOk then
              if env.updCompletedOk then
                (update_file_processing_status
                  ⟨(update_file_processing_status st job.fileId "processing").files,
                    store_embeddings
                      (delete_existing_embeddings
                        (update_file_processing_status st job.fileId "processing").chunks
                        job.fileId)
                      job.fileId job.projectId ce.1 ce.2⟩
                  job.fileId "completed",
                 some AckAction.ack)
              else
                handleProcessingError env
                  ⟨(update_file_processing_status st job.fileId "processing").files,
                    store_embeddings
                      (delete_existing_embeddings
                        (update_file_processing_status st job.fileId "processing").chunks
                        job.fileId)
                      job.fileId job.projectId ce.1 ce.2⟩
                  job
            else
              handleProcessingError env
                ⟨(update_file_processing_status st job.fileId "processing").files,
                  delete_existing_embeddings
                    (update_file_processing_status st job.fileId "processing").chunks
                    job.fileId⟩
                job
          else
            handleProcessingError env
              (update_file_processing_status st job.fileId "processing") job
        | none =>
          handleProcessingError env
            (update_file_processing_status st job.fileId "processing") job
      | none =>
        handleProcessingError env
          (update_file_processing_status st job.fileId "processing") job
    else handleProcessingError env st job

/-- The processing status a file currently has (the first matching row). -/
def getStatus (st : WorkerState) (fid : String) : Option String :=
  (st.files.find? fun f => f.id == fid).map FileRec.processing_status

/-- C6: a queue message whose body is not parseable JSON is nacked with
`requeue=False` (dropped, never retried) and the database — in particular
every file's processing status — is untouched. -/
theorem malformed_job_dropped_no_requeue_no_mutation (env : WorkerEnv)
    (st : WorkerState) :
    process_pdf_message env st none = (st, some AckAction.nackDrop) := rfl

/-- A job environment in which the blob download raises and the
failure-path status write also raises (e.g. the database is unreachable
for the error handler too). -/
def envCex : WorkerEnv := ⟨true, none, some ([], []), true, true, true, false⟩

/-- One pending file "f1". -/
def stCex : WorkerState := ⟨[⟨"f1", "pending"⟩], []⟩

/-- A well-formed job for file "f1". -/
def jobCex : Job := ⟨some "p1", some "f1", some "doc.pdf", some "path"⟩

/-- C7 counterexample: a well-formed job whose blob fetch raises, in an
environment where the error handler's own status write raises as well —
the exception propagates out of the `except` block before `basic_nack`
(pdf_processor.py line 143) runs, so the message is *not* rejected with
`requeue=True`, and the file is left in status "processing", not
"failed". -/
theorem worker_failure_requeue_cex :
    (process_pdf_message envCex stCex (some jobCex)).2 ≠
        some AckAction.nackRequeue ∧
      getStatus (process_pdf_message envCex stCex (some jobCex)).1 "f1" ≠
        some "failed" ∧
      getStatus (process_pdf_message envCex stCex (some jobCex)).1 "f1" =
        some "processing" := by decide

/-- `find?` for a file id commutes with the status-update map: updated
rows keep their ids, and a matching row maps to its updated version. -/
theorem find?_update (fid s : String) :
    ∀ fs : List FileRec,
      ((fs.map fun f =>
          if sqlEq (some f.id) (some fid) then (⟨f.id, s⟩ : FileRec) else f).find?
            fun f => f.id == fid) =
        (fs.find? fun f => f.id == fid).map fun f => (⟨f.id, s⟩ : FileRec) := by
  intro fs
  induction fs with
  | nil => rfl
  | cons f fs ih =>
    have hs : sqlEq (some f.id) (some fid) = (f.id == fid) := rfl
    by_cases hf : (f.id == fid) = true
    · simp [List.find?_cons, hs, hf]
    · simp only [Bool.not_eq_true] at hf
      simp [List.find?_cons, hs, hf, ih]

/-- Updating a file's status rewrites exactly that file's `getStatus`. -/
theorem getStatus_update (st : WorkerState) (fid s : String) :
    getStatus (update_file_processing_status st (some fid) s) fid =
      (getStatus st fid).map fun _ => s := by
  simp only [getStatus, update_file_processing_status, find?_update]
  cases st.files.find? fun f => f.id == fid <;> rfl

/-- C7 amended: a well-formed job that carries a (truthy) `fileId` for an
existing file and whose processing raises at any step — provided the error
handler's own status write succeeds — leaves the file marked `failed` and
the message nacked with `requeue=True`.  (When the handler's write raises,
no nack is sent — see the counterexample; when `fileId` is absent or
empty, the nack still happens but no status is written.) -/
theorem worker_failure_marks_failed_and_requeues (env : WorkerEnv)
    (st : WorkerState) (job : Job) (fid s0 : String)
    (hfid : job.fileId = some fid) (hne : fid ≠ "")
    (hok : env.updFailedOk = true)
    (hfail : env.updProcessingOk = false ∨ env.downloadResult = none ∨
      env.processResult = none ∨ env.deleteOk = false ∨
      env.storeOk = false ∨ env.updCompletedOk = false)
    (hs0 : getStatus st fid = some s0) :
    (process_pdf_message env st (some job)).2 = some AckAction.nackRequeue ∧
      getStatus (process_pdf_message env st (some job)).1 fid =
        some "failed" := by
  have hhe : ∀ (st' : WorkerState) (s' : String), getStatus st' fid = some s' →
      (handleProcessingError env st' job).2 = some AckAction.nackRequeue ∧
        getStatus (handleProcessingError env st' job).1 fid = some "failed" := by
    intro st' s' hs'
    have he : handleProcessingError env st' job =
        (update_file_processing_status st' (some fid) "failed",
          some AckAction.nackRequeue) := by
      simp [handleProcessingError, hfid, hne, hok]
    rw [he]
    refine ⟨rfl, ?_⟩
    rw [getStatus_update, hs']
    rfl
  have hs1 : getStatus
      (update_file_processing_status st (some fid) "processing") fid =
      some "processing" := by
    rw [getStatus_update, hs0]
    rfl
  cases hup : env.updProcessingOk with
  | false =>
    have hred : process_pdf_message env st (some job) =
        handleProcessingError env st job := by
      simp [process_pdf_message, hup]
    rw [hred]
    exact hhe st s0 hs0
  | true =>
    cases hdl : env.downloadResult with
    | none =>
      have hred : process_pdf_message env st (some job) =
          handleProcessingError env
            (update_file_processing_status st job.fileId "processing") job := by
        simp [process_pdf_message, hup, hdl]
      rw [hred, hfid]
      exact hhe _ _ hs1
    | some path =>
      cases hpr : env.processResult with
      | none =>
        have hred : process_pdf_message env st (some job) =
            handleProcessingError env
              (update_file_processing_status st job.fileId "processing") job := by
          simp [process_pdf_message, hup, hdl, hpr]
        rw [hred, hfid]
        exact hhe _ _ hs1
      | some ce =>
        cases hdel : env.deleteOk with
        | false =>
          have hred : process_pdf_message env st (some job) =
              handleProcessingError env
                (update_file_processing_status st job.fileId "processing") job := by
            simp [process_pdf_message, hup, hdl, hpr, hdel]
          rw [hred, hfid]
          exact hhe _ _ hs1
        | true =>
          cases hst : env.storeOk with
          | false =>
            have hred : process_pdf_message env st (some job) =
                handleProcessingError env
                  ⟨(update_file_processing_status st job.fileId "processing").files,
                    delete_existing_embeddings
                      (update_file_processing_status st job.fileId "processing").chunks
                      job.fileId⟩
                  job := by
              simp [process_pdf_message, hup, hdl, hpr, hdel, hst]
            rw [hred]
            refine hhe _ "processing" ?_
            rw [hfid]
            exact hs1
          | true =>
            cases hcomp : env.updCompletedOk with
            | false =>
              have hred : process_pdf_message env st (some job) =
                  handleProcessingError env
                    ⟨(update_file_processing_status st job.fileId "processing").files,
                      store_embeddings
                        (delete_existing_embeddings
                          (update_file_processing_status st job.fileId "processing").chunks
                          job.fileId)
                        job.fileId job.projectId ce.1 ce.2⟩
                    job := by
                simp [process_pdf_message, hup, hdl, hpr, hdel, hst, hcomp]
              rw [hred]
              refine hhe _ "processing" ?_
              rw [hfid]
              exact hs1
            | true =>
              rcases hfail with h | h | h | h | h | h <;> simp_all

/-- The counterexample environment with a working failure-path write. -/
def envW : WorkerEnv := ⟨true, none, some ([], []), true, true, true, true⟩

theorem worker_failure_marks_failed_and_requeues_witness :
    (process_pdf_message envW stCex (some jobCex)).2 =
        some AckAction.nackRequeue ∧
      getStatus (process_pdf_message envW stCex (some jobCex)).1 "f1" =
        some "failed" :=
  worker_failure_marks_failed_and_requeues envW stCex jobCex "f1" "pending"
    rfl (by decide) rfl (Or.inr (Or.inl rfl)) (by decide)

/-- One message of the request's `chat_history`. -/
structure HistoryMessage where
  content : String
  role : String
  timestamp : String
deriving DecidableEq, Repr

/-- A `ChatRequest` protobuf message. -/
structure ChatRequest where
  message : String
  project_id : String
  chat_history : List HistoryMessage
deriving DecidableEq, Repr

/-- A `DocumentSource` protobuf message. -/
structure DocumentSource where
  file_id : String
  filename : String
  page_number : ℕ
  chunk_index : ℕ
  similarity_score : ℚ
deriving DecidableEq, Repr

/-- A `ChatResponse` protobuf message with its four fields; fields not set
at a `yield` site keep their proto3 defaults (`""`, `false`, `[]`). -/
structure ChatResponse where
  token : String
  error : String
  complete : Bool
  sources : List DocumentSource
deriving DecidableEq, Repr

/-- `yield ChatResponse(token=t, complete=False)`. -/
def mkTokenResp (t : String) : ChatResponse := ⟨t, "", false, []⟩

/-- `yield ChatResponse(error=e, complete=True)`. -/
def mkErrorResp (e : String) : ChatResponse := ⟨"", e, true, []⟩

/-- `yield ChatResponse(complete=True, sources=s)`. -/
def mkDoneResp (s : List DocumentSource) : ChatResponse := ⟨"", "", true, s⟩

/-- Python `str.strip()`: remove leading and trailing whitespace
characters. -/
def pyStrip (s : String) : String :=
  String.mk (((s.data.dropWhile Char.isWhitespace).reverse.dropWhile
    Char.isWhitespace).reverse)

/-- `validate_request` (context.py lines 51-82): empty/whitespace-only
message, then empty/whitespace-only project id, then message length over
10,000 characters; Python's falsy `.strip()` test is `pyStrip _ = ""`. -/
def validate_request (req : ChatRequest) : Bool × String :=
  if pyStrip req.message = "" then (false, "Message cannot be empty")
  else if pyStrip req.project_id = "" then (false, "Project ID is required")
  else if req.message.length > 10000 then
    (false, "Message too long (max 10,000 chars)")
  else (true, "")

/-- `format_sources` (context.py lines 19-49): dictionary fields, with
`page_number` defaulting to 0 through `ch.get("page_number", 0) or 0`. -/
def format_sources (chunks : List RetrievedChunk) : List DocumentSource :=
  chunks.map fun ch =>
    ⟨ch.file_id, ch.filename,
      (match ch.page_number with | none => 0 | some p => p),
      ch.chunk_index, ch.similarity_score⟩

/-- Outcomes of the calls `StreamChat` makes: what
`retrieval_service.retrieve_context` returns (`none` = it raised), the
tokens the LLM generator produces, whether the generator raises after its
last produced token, and from which poll onward `context.is_cancelled()`
reports `true` (`none` = never). -/
structure ChatEnv where
  retrieveResult : Option (String × List RetrievedChunk)
  llmTokens : List String
  llmRaises : Bool
  cancelAt : Option ℕ
deriving DecidableEq, Repr

/-- The token-forwarding loop and terminal message of `StreamChat`
(grpc_server.py lines 88-110): each obtained token is forwarded unless the
cancellation poll broke the loop first; a generator exception after the
produced tokens yields the generic error; otherwise the terminal sources
message is sent (also after a cancellation break). -/
def streamTail (env : ChatEnv) (pb : List DocumentSource) :
    List ChatResponse :=
  match env.cancelAt with
  | some n =>
    if n < env.llmTokens.length then
      (env.llmTokens.take n).map mkTokenResp ++ [mkDoneResp pb]
    else if env.llmRaises then
      env.llmTokens.map mkTokenResp ++
        [mkErrorResp "Failed to generate response"]
    else env.llmTokens.map mkTokenResp ++ [mkDoneResp pb]
  | none =>
    if env.llmRaises then
      env.llmTokens.map mkTokenResp ++
        [mkErrorResp "Failed to generate response"]
    else env.llmTokens.map mkTokenResp ++ [mkDoneResp pb]

/-- `StreamChat` (grpc_server.py lines 38-110): validation, context
retrieval (a raise yields the single retrieval error), then the streaming
loop with its terminal message. -/
def StreamChat (env : ChatEnv) (req : ChatRequest) : List ChatResponse :=
  if (validate_request req).1 = false then
    [mkErrorResp (validate_request req).2]
  else
    match env.retrieveResult with
    | none => [mkErrorResp "Failed to retrieve relevant documents"]
    | some pr => streamTail env (format_sources pr.2)

/-- C8: a request whose message is empty or whitespace-only, whose project
id is empty or whitespace-only, or whose message exceeds 10,000
characters, makes `StreamChat` emit exactly one response — an error
message with `complete = true` — and no token and no sources. -/
theorem invalid_request_single_error_response (env : ChatEnv)
    (req : ChatRequest)
    (h : pyStrip req.message = "" ∨ pyStrip req.project_id = "" ∨
      10000 < req.message.length) :
    ∃ e, e ≠ "" ∧ StreamChat env req = [⟨"", e, true, []⟩] := by
  have hout : ∀ e, validate_request req = (false, e) →
      StreamChat env req = [⟨"", e, true, []⟩] := by
    intro e hv
    simp [StreamChat, hv, mkErrorResp]
  by_cases h1 : pyStrip req.message = ""
  · exact ⟨"Message cannot be empty", by decide,
      hout _ (by simp [validate_request, h1])⟩
  · by_cases h2 : pyStrip req.project_id = ""
    · exact ⟨"Project ID is required", by decide,
        hout _ (by simp [validate_request, h1, h2])⟩
    · have h3 : 10000 < req.message.length := by tauto
      exact ⟨"Message too long (max 10,000 chars)", by decide,
        hout _ (by simp [validate_request, h1, h2, h3])⟩

/-- A concrete request with a whitespace-only message. -/
def reqCex : ChatRequest := ⟨"  ", "p1", []⟩

/-- A concrete environment for the chat service. -/
def chatEnv0 : ChatEnv := ⟨none, [], false, none⟩

theorem invalid_request_single_error_response_witness :
    ∃ e, e ≠ "" ∧ StreamChat chatEnv0 reqCex = [⟨"", e, true, []⟩] :=
  invalid_request_single_error_response chatEnv0 reqCex (Or.inl (by decide))
